import Mathlib

/-!
Verification of the steroids-template HTTP bootstrap core.

The development shallowly embeds the module-lifecycle orchestrator, the
declarative validation engine and the route-table compiler of
`src/@steroids/main.ts` together with the validator combinators of
`src/@steroids/core.ts` and the `ServerError` class.

JavaScript runtime values are modelled by the inductive `JSVal`; machine
details that no claim touches (floating point `NaN`, prototype chains beyond
plain own-property lookup, the on-disk logger) are outside the model and
noted where relevant.  Validator functions are modelled as Lean functions
returning `Except JSErr VRes`: the `Except.error` constructor models a thrown
exception, `VRes` models the returned `boolean | Error` value.
-/

namespace Steroids

/-- A JavaScript runtime value, restricted to the shapes the framework
manipulates: `undefined`, `null`, booleans, (integer) numbers, strings,
arrays and plain objects given as ordered own-property lists. -/
inductive JSVal where
  | undefined
  | null
  | bool (b : Bool)
  | num (n : Int)
  | str (s : String)
  | arr (elems : List JSVal)
  | obj (fields : List (String × JSVal))

/-- First-match own-property lookup on a field list. -/
def lookupField : List (String × JSVal) → String → JSVal
  | [], _ => .undefined
  | (k, v) :: rest, key => if k == key then v else lookupField rest key

/-- `value[key]` property read; `undefined` on non-objects (array index and
string properties are not needed by any claim). -/
def JSVal.getProp : JSVal → String → JSVal
  | .obj fields, key => lookupField fields key
  | _, _ => .undefined

/-- `value.hasOwnProperty(key)` for plain objects (`false` elsewhere; no
claim reads own properties of arrays or primitives). -/
def JSVal.hasOwn : JSVal → String → Bool
  | .obj fields, key => fields.any (fun kv => kv.1 == key)
  | _, _ => false

/-- JavaScript truthiness of a value. -/
def jsTruthy : JSVal → Bool
  | .undefined => false
  | .null => false
  | .bool b => b
  | .num n => n != 0
  | .str s => s != ""
  | .arr _ => true
  | .obj _ => true

/-- `typeof value === 'object'` (true for `null`, arrays and objects). -/
def typeofIsObject : JSVal → Bool
  | .null => true
  | .arr _ => true
  | .obj _ => true
  | _ => false

/-- `value.constructor === Object`. -/
def ctorIsObject : JSVal → Bool
  | .obj _ => true
  | _ => false

/-- The test `! value || typeof value !== 'object' || value.constructor !== Object`
used throughout the source to reject anything that is not a plain object. -/
def jsPlainCheckFails (v : JSVal) : Bool :=
  !jsTruthy v || !typeofIsObject v || !ctorIsObject v

/-- A single-quote character as a string, used to assemble the failure
messages of the validation engine. -/
def sq : String := String.singleton (Char.ofNat 39)

/-- A native `Error` object (only its `message` is observable to any claim;
the `stack` is carried by the logger, outside this model). -/
structure JSErr where
  message : String
  deriving DecidableEq, Repr

/-- The value returned by a validator: `boolean | Error`. -/
inductive VRes where
  | bool (b : Bool)
  | err (e : JSErr)
  deriving DecidableEq, Repr

/-- A `ValidatorFunction (value, rawValues) => boolean | Error`, which may
also throw (`Except.error`).  A call site that passes a single argument
leaves `rawValues` as `JSVal.undefined`, exactly like the JavaScript call. -/
def Validator : Type := JSVal → JSVal → Except JSErr VRes

/-- JavaScript truthiness of a validator result (an `Error` object is
truthy). -/
def truthyRes : VRes → Bool
  | .bool b => b
  | .err _ => true

/-! ## ServerError (`src/@steroids/main.ts` lines 977-1018) -/

/-- The `ServerError` class: `error` is the readonly literal `true`; the
cause stack is not modelled (no claim observes it). -/
structure ServerError where
  message : String
  httpCode : Nat
  code : String
  deriving DecidableEq, Repr

/-- `new ServerError(message, httpCode = 500, code = 'UNKOWN_ERROR')`;
`none` models an omitted argument. -/
def ServerError.make (message : String) (httpCode : Option Nat) (code : Option String) : ServerError :=
  { message := message
    httpCode := httpCode.getD 500
    code := code.getD "UNKOWN_ERROR" }

/-- `ServerError.from(error, httpCode = 500, code?)`: builds
`new ServerError(error.message, httpCode || 500, code || error.code)`.
A plain `Error` has no `code` property, so `error.code` is `undefined`. -/
def ServerError.from (e : JSErr) (httpCode : Option Nat) (code : Option String) : ServerError :=
  ServerError.make e.message
    (some (match httpCode with
      | some h => if h = 0 then 500 else h
      | none => 500))
    (match code with
      | some s => if s = "" then none else some s
      | none => none)

/-- The JSON body `{ error: true, message, code }` written by `respond`. -/
structure ErrorBody where
  error : Bool
  message : String
  code : String
  deriving DecidableEq, Repr

/-- An HTTP response produced through `res.status(code).json(body)`. -/
structure HttpResponse where
  status : Nat
  body : ErrorBody
  deriving DecidableEq, Repr

/-- `ServerError.prototype.respond`. -/
def ServerError.respond (e : ServerError) : HttpResponse :=
  { status := e.httpCode
    body := { error := true, message := e.message, code := e.code } }

/-! ## Validator combinators (`src/@steroids/core.ts`) -/

/-- `typeof result === 'boolean' ? result : false` — the coercion `or`
applies to each validator result. -/
def boolishRes : VRes → Bool
  | .bool b => b
  | .err _ => false

/-- The loop body of `or`: accumulates `orCheck` across all validators,
calling each with the single argument `value` (so `rawValues` is
`undefined`); a thrown exception propagates. -/
def orAux (value : JSVal) : List Validator → Bool → Except JSErr VRes
  | [], orCheck => .ok (.bool orCheck)
  | v :: rest, orCheck =>
    match v value .undefined with
    | .error e => .error e
    | .ok r => orAux value rest (orCheck || boolishRes r)

/-- `or(...validators)` from `src/@steroids/core.ts` lines 204-222. -/
def or (validators : List Validator) : Validator :=
  fun value _ => orAux value validators false

/-- The loop body of `sub`: for each definition key, the value must have the
key as an own property and the validator's result must be truthy
(`! value.hasOwnProperty(key) || ! bodyValidator[key](value[key])` with
JavaScript short-circuiting, so the validator is not called on a missing
key). -/
def subAux (value : JSVal) : List (String × Validator) → Except JSErr VRes
  | [] => .ok (.bool true)
  | (key, v) :: rest =>
    if !(value.hasOwn key) then .ok (.bool false)
    else
      match v (value.getProp key) .undefined with
      | .error e => .error e
      | .ok r => if !(truthyRes r) then .ok (.bool false) else subAux value rest

/-- `sub(bodyValidator)` from `src/@steroids/core.ts` lines 182-198. -/
def sub (bodyValidator : List (String × Validator)) : Validator :=
  fun value _ =>
    if jsPlainCheckFails value then .ok (.bool false)
    else subAux value bodyValidator

/-! ## Validation definitions and `validateDefinition`
(`src/@steroids/main.ts` lines 225-260) -/

mutual
/-- One entry of a validation definition: either a validator function or a
nested (body) definition object. -/
inductive DefEntry where
  | fn (v : JSVal → JSVal → Except JSErr VRes)
  | nested (d : ValDef)

/-- A validation definition: the ordered own properties of the definition
object, as iterated by `_.keys`. -/
inductive ValDef where
  | nil
  | cons (key : String) (entry : DefEntry) (rest : ValDef)
end

/-- The failure message `Invalid ${type} '${path}'!`. -/
def invalidMsg (ty path : String) : String :=
  "Invalid " ++ ty ++ " " ++ sq ++ path ++ sq ++ "!"

/-- `validateDefinition(definition, values, originalValues, type, prefix,
recursive?)`: returns the first failure (`some e` models a returned `Error`,
`none` a clean pass, `Except.error` a thrown exception).  Note that the
nested-object branch runs only when the `recursive` flag is truthy, and its
failure message interpolates the bare `key`, not the computed `keyPath`. -/
def validateDefinition :
    ValDef → JSVal → JSVal → String → String → Bool → Except JSErr (Option JSErr)
  | .nil, _, _, _, _, _ => .ok none
  | .cons key entry rest, values, originalValues, ty, pfx, recursive =>
    let keyPath := if pfx ≠ "" then pfx ++ "." ++ key else key
    match entry with
    | .fn v =>
      match v (values.getProp key) originalValues with
      | .error e => .error e
      | .ok (.bool false) => .ok (some ⟨invalidMsg ty keyPath⟩)
      | .ok (.err e) => .ok (some e)
      | .ok (.bool true) => validateDefinition rest values originalValues ty pfx recursive
    | .nested d =>
      if recursive then
        if !(values.hasOwn key) || !jsTruthy (values.getProp key)
            || !typeofIsObject (values.getProp key)
            || !ctorIsObject (values.getProp key) then
          .ok (some ⟨invalidMsg ty key⟩)
        else
          match validateDefinition d (values.getProp key) originalValues ty keyPath recursive with
          | .error e => .error e
          | .ok (some e) => .ok (some e)
          | .ok none => validateDefinition rest values originalValues ty pfx recursive
      else validateDefinition rest values originalValues ty pfx recursive

/-! ## The validation middleware
(`src/@steroids/main.ts` lines 262-323) -/

/-- One validation rule of a route, as built by the `headers`, `queries`,
`body` and `custom` rule factories of `src/@steroids/core.ts`. -/
inductive Rule where
  | header (d : ValDef)
  | query (d : ValDef)
  | body (d : ValDef)
  | custom (v : JSVal → JSVal → Except JSErr VRes)

/-- A request is a JavaScript value carrying `headers`, `query` and `body`
properties. -/
def reqHeaders (req : JSVal) : JSVal := req.getProp "headers"

/-- The request's parsed query object. -/
def reqQuery (req : JSVal) : JSVal := req.getProp "query"

/-- The request's parsed body. -/
def reqBody (req : JSVal) : JSVal := req.getProp "body"

/-- One iteration of the rule loop inside `createValidationMiddleware`.
Header and query rules call `validateDefinition` without the `recursive`
argument (hence `false`); so does the body rule, after the plain-object
check on `req.body`. -/
def evalRule (rule : Rule) (req : JSVal) : Except JSErr (Option JSErr) :=
  match rule with
  | .header d => validateDefinition d (reqHeaders req) (reqHeaders req) "header" "" false
  | .query d => validateDefinition d (reqQuery req) (reqQuery req) "query" "" false
  | .body d =>
    if jsPlainCheckFails (reqBody req) then .ok (some ⟨"Invalid body type!"⟩)
    else validateDefinition d (reqBody req) (reqBody req) "body property" "" false
  | .custom v =>
    match v req .undefined with
    | .error e => .error e
    | .ok (.bool false) => .ok (some ⟨"Invalid request!"⟩)
    | .ok (.err e) => .ok (some e)
    | .ok (.bool true) => .ok none

/-- The async IIFE over `route.validate`: stops at the first rule that
returns an `Error`, propagates the first thrown exception, yields `none`
(`true` in the source) when every rule passes. -/
def runRules : List Rule → JSVal → Except JSErr (Option JSErr)
  | [], _ => .ok none
  | rule :: rest, req =>
    match evalRule rule req with
    | .error e => .error e
    | .ok (some e) => .ok (some e)
    | .ok none => runRules rest req

/-- The observable outcome of a middleware: pass control on, or answer the
request. -/
inductive MwResult where
  | next
  | respond (r : HttpResponse)

/-- The validation middleware built by `createValidationMiddleware`: on
success call `next()`; on a returned `Error` reject through
`rejectForValidation` (`new ServerError(message, 400, 'VALIDATION_FAILED')`);
on a thrown `Error` (which has no `valid` property, so the first `catch`
branch is never taken) respond with
`ServerError.from(error, 500, 'VALIDATION_FAILED')`. -/
def validationMiddleware (rules : List Rule) (req : JSVal) : MwResult :=
  match runRules rules req with
  | .ok none => .next
  | .ok (some e) =>
    .respond ((ServerError.make e.message (some 400) (some "VALIDATION_FAILED")).respond)
  | .error e =>
    .respond ((ServerError.from e (some 500) (some "VALIDATION_FAILED")).respond)

/-! ## Module lifecycle (`src/@steroids/main.ts` lines 162-217 and 556-589)

A module's lifecycle hook is opaque application code; the orchestrator only
observes whether the hook is absent, resolves, or throws/rejects, so a hook
is abstracted by `HookSpec`.  Traces record the `emitOnce` notifications,
the hook invocations, and the bootstrap tail (error reporting and
`app.listen`); `log.debug` calls are omitted from traces as no claim
observes them. -/

/-- The kind of a module. -/
inductive ModuleType where
  | service
  | router
  deriving DecidableEq, Repr

/-- A lifecycle phase. -/
inductive Phase where
  | inject
  | config
  | init
  deriving DecidableEq, Repr

/-- The observable behaviour of one lifecycle hook. -/
inductive HookSpec where
  | absent
  | succeeds
  | throws (msg : String)
  deriving DecidableEq, Repr

/-- A registered module: its declared name and kind together with the
behaviour of its three optional hooks. -/
structure ModuleM where
  name : String
  type : ModuleType
  inject : HookSpec
  config : HookSpec
  init : HookSpec
  deriving DecidableEq, Repr

/-- Events observable during bootstrap. -/
inductive LifeEv where
  | emit (name : String)
  | runHook (moduleName : String) (ph : Phase)
  | logError (msg : String)
  | emitError (msg : String)
  | listen (port : Int)
  | emitLaunch (port : Int)
  deriving DecidableEq, Repr

/-- The `'service'` / `'router'` string used in event names. -/
def mtStr : ModuleType → String
  | .service => "service"
  | .router => "router"

/-- The phase segment of an event name. -/
def phaseStr : Phase → String
  | .inject => "inject"
  | .config => "config"
  | .init => "init"

/-- Runs one phase of a module, when its hook is present: emit the global
and the name-scoped `:before` notifications, await the hook, then emit the
`:after` notifications in reverse scoping order.  A throwing hook aborts
after its invocation, before any `:after` notification. -/
def runPhase (m : ModuleM) (ph : Phase) (spec : HookSpec) : List LifeEv × Option String :=
  match spec with
  | .absent => ([], none)
  | .succeeds =>
    ([.emit (mtStr m.type ++ ":" ++ phaseStr ph ++ ":before"),
      .emit (m.name ++ "-" ++ mtStr m.type ++ ":" ++ phaseStr ph ++ ":before"),
      .runHook m.name ph,
      .emit (m.name ++ "-" ++ mtStr m.type ++ ":" ++ phaseStr ph ++ ":after"),
      .emit (mtStr m.type ++ ":" ++ phaseStr ph ++ ":after")], none)
  | .throws e =>
    ([.emit (mtStr m.type ++ ":" ++ phaseStr ph ++ ":before"),
      .emit (m.name ++ "-" ++ mtStr m.type ++ ":" ++ phaseStr ph ++ ":before"),
      .runHook m.name ph], some e)

/-- One iteration of the `initializeModules` loop: the three phases of one
module, strictly in order, aborting at the first failure. -/
def runModule (m : ModuleM) : List LifeEv × Option String :=
  let r1 := runPhase m .inject m.inject
  match r1.2 with
  | some e => (r1.1, some e)
  | none =>
    let r2 := runPhase m .config m.config
    match r2.2 with
    | some e => (r1.1 ++ r2.1, some e)
    | none =>
      let r3 := runPhase m .init m.init
      (r1.1 ++ r2.1 ++ r3.1, r3.2)

/-- `initializeModules(modules)`: the modules in registry iteration order,
each fully lifecycle-driven before the next; a rejection aborts the rest of
the loop. -/
def runModules : List ModuleM → List LifeEv × Option String
  | [] => ([], none)
  | m :: rest =>
    let r := runModule m
    match r.2 with
    | some e => (r.1, some e)
    | none =>
      let r2 := runModules rest
      (r.1 ++ r2.1, r2.2)

/-- The `.catch` handler of the bootstrap chain: `log.error(...)` then
`events.emit('error', error)`. -/
def catchTrace (e : String) : List LifeEv :=
  [.logError "Could not initialize modules due to an error:", .emitError e]

/-- The final `.then`: `app.listen(port, cb)`; on a successful bind the
callback emits `launch` (the listen-error path is an external transport
failure no claim exercises). -/
def listenTrace (port : Int) : List LifeEv :=
  [.listen port, .emitLaunch port]

/-- The bootstrap chain
`initializeModules(services).then(() => initializeModules(routers)).catch(h).then(listen)`:
the router set runs only if the service set resolved, the catch handler
recovers the chain, and `app.listen` runs unconditionally afterwards. -/
def boot (services routers : List ModuleM) (port : Int) : List LifeEv :=
  match runModules services with
  | (t, some e) => t ++ catchTrace e ++ listenTrace port
  | (t, none) =>
    match runModules routers with
    | (t2, some e) => t ++ t2 ++ catchTrace e ++ listenTrace port
    | (t2, none) => t ++ t2 ++ listenTrace port

/-- The subsequence of hook invocations of a trace. -/
def hookSeq (tr : List LifeEv) : List (String × Phase) :=
  tr.filterMap fun e =>
    match e with
    | .runHook n p => some (n, p)
    | _ => none

/-- Whether a hook is implemented by the module. -/
def HookSpec.present : HookSpec → Bool
  | .absent => false
  | _ => true

/-- Whether a hook does not throw. -/
def hookOk : HookSpec → Bool
  | .throws _ => false
  | _ => true

/-- A module none of whose hooks throws or rejects. -/
def moduleOk (m : ModuleM) : Bool :=
  hookOk m.inject && hookOk m.config && hookOk m.init

/-- The phases a module implements, in lifecycle order. -/
def presentPhases (m : ModuleM) : List Phase :=
  (if m.inject.present then [Phase.inject] else [])
    ++ (if m.config.present then [Phase.config] else [])
    ++ (if m.init.present then [Phase.init] else [])

/-! ## Route table compilation (`src/@steroids/main.ts` lines 430-551) -/

/-- An HTTP verb of a route definition (`RouteMethod` in
`src/@steroids/models.ts`); `none` at a route means global `app.use`. -/
inductive RouteMethod where
  | get
  | post
  | put
  | delete
  | patch
  deriving DecidableEq, Repr

/-- A CORS policy (`CORSPolicy` in `src/@steroids/models.ts`); field values
are opaque JavaScript values. -/
structure CORSPolicy where
  origin : Option JSVal
  methods : Option JSVal
  allowedHeaders : Option JSVal
  exposedHeaders : Option JSVal
  credentials : Option JSVal
  maxAge : Option JSVal
  optionsSuccessStatus : Option JSVal

/-- The open-origin default `{ origin: true }`. -/
def defaultCorsPolicy : CORSPolicy :=
  { origin := some (.bool true), methods := none, allowedHeaders := none,
    exposedHeaders := none, credentials := none, maxAge := none,
    optionsSuccessStatus := none }

/-- A route definition (`RouteDefinition` in `src/@steroids/models.ts`). -/
structure RouteDef where
  path : String
  handler : String
  method : Option RouteMethod
  validate : Option (List Rule)
  corsPolicy : Option CORSPolicy

/-- A router instance together with its `__metadata`: `protoProps` are
`Object.getOwnPropertyNames(Object.getPrototypeOf(router))` and `isFn name`
is `typeof router[name] === 'function'`.  A `none` entry in `routes` models
a falsy element of the routes array. -/
structure RouterM where
  name : String
  priority : Int
  corsPolicy : Option CORSPolicy
  routes : List (Option RouteDef)
  protoProps : List String
  isFn : String → Bool

/-- A tag describing one element of a compiled middleware chain. -/
inductive MwTag where
  | logger
  | validation (rules : List Rule)
  | cors (policy : CORSPolicy)
  | handler (name : String)

/-- An entry of the assembled route table. -/
inductive AppEvent where
  | predictive404
  | static404
  | errorHandler
  | warn (msg : String)
  | logError (msg : String)
  | install (path : String) (method : Option RouteMethod) (chain : List MwTag)

/-- The middleware chain built for one route: the request logger, the
validation middleware whenever `route.validate` is truthy (any array,
including an empty one), the CORS middleware with
`route.corsPolicy || router.corsPolicy || { origin: true }`, and the bound
handler. -/
def routeChain (router : RouterM) (route : RouteDef) : List MwTag :=
  [MwTag.logger]
    ++ (match route.validate with
      | some rules => [MwTag.validation rules]
      | none => [])
    ++ [MwTag.cors (match route.corsPolicy with
      | some p => p
      | none => match router.corsPolicy with
        | some p => p
        | none => defaultCorsPolicy)]
    ++ [MwTag.handler route.handler]

/-- `log.warn` message for a malformed route entry. -/
def badRouteMsg (router : RouterM) : String :=
  "Router \"" ++ router.name ++ "\" has incorrectly defined a route!"

/-- `log.error` message for a missing handler. -/
def handlerNotFoundMsg (router : RouterM) (route : RouteDef) : String :=
  "Route handler \"" ++ route.handler ++ "\" not found in router \""
    ++ router.name ++ "\"!"

/-- `log.warn` message for a router with no routes. -/
def noRoutesMsg (router : RouterM) : String :=
  "Router \"" ++ router.name ++ "\" has no defined routes!"

/-- The inner route loop: a falsy entry or a falsy `path`/`handler` is
warned about and skipped; a handler that is not an own prototype property
or not callable is logged and skipped; otherwise the route is mounted at
`route.path` for `route.method` (or as global middleware). -/
def compileRoutes (router : RouterM) : List (Option RouteDef) → List AppEvent
  | [] => []
  | none :: rest => .warn (badRouteMsg router) :: compileRoutes router rest
  | some route :: rest =>
    if route.path == "" || route.handler == "" then
      .warn (badRouteMsg router) :: compileRoutes router rest
    else if !(router.protoProps.contains route.handler && router.isFn route.handler) then
      .logError (handlerNotFoundMsg router route) :: compileRoutes router rest
    else
      .install route.path route.method (routeChain router route) :: compileRoutes router rest

/-- One iteration of the outer router loop, after the predictive-404
check: a router with no routes only warns. -/
def compileRouter (router : RouterM) : List AppEvent :=
  if router.routes.isEmpty then [.warn (noRoutesMsg router)]
  else compileRoutes router router.routes

/-- The configuration fields the compiler reads.
`predictive404Priority` is a JavaScript number whose default is
`Infinity`; `none` models `Infinity`, `some t` a finite threshold. -/
structure Config where
  predictive404 : Bool
  predictive404Priority : Option Int
  deriving DecidableEq, Repr

/-- `config.predictive404Priority > priority` (`Infinity` exceeds every
finite priority). -/
def gtNum (threshold : Option Int) (priority : Int) : Bool :=
  match threshold with
  | none => true
  | some t => t > priority

/-- Stable insertion of a router into a descending-priority sorted list:
the inserted (earlier) router goes before later routers of equal
priority. -/
def insertRouter (a : RouterM) : List RouterM → List RouterM
  | [] => [a]
  | x :: xs => if x.priority > a.priority then x :: insertRouter a xs else a :: x :: xs

/-- `_.orderBy(routers, r => r.__metadata.priority, ['desc'])`: a stable
descending sort on priority. -/
def sortRouters : List RouterM → List RouterM
  | [] => []
  | a :: rest => insertRouter a (sortRouters rest)

/-- The router loop with the one-shot `predictive404Installed` flag:
before compiling each router's routes, install the predictive-404 guard if
it is enabled, the threshold exceeds this router's priority and the flag is
still unset.  Returns the emitted table and the final flag value. -/
def installLoop (cfg : Config) : List RouterM → Bool → List AppEvent × Bool
  | [], installed => ([], installed)
  | r :: rest, installed =>
    ((if cfg.predictive404 && gtNum cfg.predictive404Priority r.priority && !installed then
        [AppEvent.predictive404]
      else [])
        ++ compileRouter r
        ++ (installLoop cfg rest
            (installed
              || (cfg.predictive404 && gtNum cfg.predictive404Priority r.priority && !installed))).1,
     (installLoop cfg rest
       (installed
         || (cfg.predictive404 && gtNum cfg.predictive404Priority r.priority && !installed))).2)

/-- The whole table assembly: sort, run the router loop, install the
predictive 404 once at the end when enabled but never fired, install the
static catch-all 404 when predictive 404 is disabled, and finish with the
terminal error handler. -/
def compileApp (cfg : Config) (routers : List RouterM) : List AppEvent :=
  let res := installLoop cfg (sortRouters routers) false
  res.1
    ++ (if cfg.predictive404 && !res.2 then [AppEvent.predictive404] else [])
    ++ (if !cfg.predictive404 then [AppEvent.static404] else [])
    ++ [AppEvent.errorHandler]

/-- Recognizes the predictive-404 guard in the table. -/
def isP404 : AppEvent → Bool
  | .predictive404 => true
  | _ => false

/-! ## Concrete instances used by witnesses and counterexamples -/

/-- A validator that returns `false` on every input. -/
def alwaysFalseV : JSVal → JSVal → Except JSErr VRes := fun _ _ => .ok (.bool false)

/-- The nested body definition `{ parent: { child: alwaysFalse } }`. -/
def nestedParentDef : ValDef :=
  .cons "parent" (.nested (.cons "child" (.fn alwaysFalseV) .nil)) .nil

/-- The doubly nested body definition `{ a: { b: { c: alwaysFalse } } }`. -/
def deepNestedDef : ValDef :=
  .cons "a" (.nested (.cons "b" (.nested (.cons "c" (.fn alwaysFalseV) .nil)) .nil)) .nil

/-- A request whose headers, query and body are all `{}`. -/
def emptyReq : JSVal :=
  .obj [("headers", .obj []), ("query", .obj []), ("body", .obj [])]

/-! ## C9 — ErrorSignal defaults and rendering -/

/-- Claim C9 (code evaluation at the failing input): an `ErrorSignal`
constructed without an explicit status or code defaults to HTTP 500 — but
its default `code` is the misspelled literal `"UNKOWN_ERROR"`, not the
`"UNKNOWN_ERROR"` the claim states; rendering produces the signal's
`httpStatus` with body `{ error: true, message, code }` as claimed. -/
theorem serverError_default_code_misspelled :
    (ServerError.make "Some failure" none none).httpCode = 500
    ∧ (ServerError.make "Some failure" none none).code = "UNKOWN_ERROR"
    ∧ (ServerError.make "Some failure" none none).respond
      = { status := 500,
          body := { error := true, message := "Some failure", code := "UNKOWN_ERROR" } } :=
  ⟨rfl, rfl, rfl⟩

/-! ## C8 — Body rules and nested definitions -/

/-- Claim C8 (code evaluation at the failing input): the middleware calls
`validateDefinition` without the `recursive` argument, so a Body rule whose
definition contains the nested entry `parent` accepts the empty body `{}`
instead of failing with `Invalid body property 'parent'!`; and even with
`recursive` forced to `true`, the nested-object failure message
interpolates the bare key (`'b'`), not the dotted path (`'a.b'`) the claim
states. -/
theorem body_nested_definition_skipped :
    validationMiddleware [Rule.body nestedParentDef] emptyReq = .next
    ∧ validateDefinition deepNestedDef (JSVal.obj [("a", .obj [])])
        (JSVal.obj [("a", .obj [])]) "body property" "" true
      = .ok (some ⟨invalidMsg "body property" "b"⟩) :=
  ⟨rfl, rfl⟩

/-! ## C5 — `or` evaluates every validator and never returns an error -/

/-- The contribution of an already-returned validator result to `orCheck`,
viewed through the `Except` layer. -/
def boolishExc : Except JSErr VRes → Bool
  | .ok r => boolishRes r
  | .error _ => false

theorem orAux_spec (value : JSVal) :
    ∀ (vs : List Validator), (∀ v ∈ vs, ∃ r, v value .undefined = .ok r) → ∀ acc,
      orAux value vs acc
        = .ok (.bool (acc || vs.any fun v => boolishExc (v value .undefined)))
  | [], _, acc => by simp [orAux]
  | v :: rest, h, acc => by
    obtain ⟨r, hr⟩ := h v (List.mem_cons_self v rest)
    have ih := orAux_spec value rest (fun w hw => h w (List.mem_cons_of_mem v hw))
      (acc || boolishRes r)
    simp only [orAux, hr, ih, List.any_cons, boolishExc]
    rw [Bool.or_assoc]

theorem boolishExc_eq_true_iff (value : JSVal) (v : Validator)
    (h : ∃ r, v value .undefined = .ok r) :
    boolishExc (v value .undefined) = true ↔ v value .undefined = .ok (.bool true) := by
  obtain ⟨r, hr⟩ := h
  rw [hr]
  cases r with
  | bool b => cases b <;> simp [boolishExc, boolishRes]
  | err e => simp [boolishExc, boolishRes]

/-- Claim C5: for every list of validators and every value, `or` (which
calls each validator with the single argument `value`) returns a plain
boolean — never an `Error` value — and that boolean is `true` exactly when
at least one validator returned exactly `true`; a returned `Error` counts
as `false`.  The hypothesis restricts to validators that return rather
than throw (a thrown exception would abort the loop in JavaScript too). -/
theorem or_all_validators_boolean (vs : List Validator) (value : JSVal)
    (h : ∀ v ∈ vs, ∃ r, v value .undefined = .ok r) :
    ∃ b : Bool, or vs value .undefined = .ok (.bool b)
      ∧ (b = true ↔ ∃ v ∈ vs, v value .undefined = .ok (.bool true)) := by
  refine ⟨vs.any fun v => boolishExc (v value .undefined), ?_, ?_⟩
  · show orAux value vs false = _
    rw [orAux_spec value vs h false]
    simp
  · rw [List.any_eq_true]
    constructor
    · rintro ⟨v, hv, hb⟩
      exact ⟨v, hv, (boolishExc_eq_true_iff value v (h v hv)).1 hb⟩
    · rintro ⟨v, hv, hb⟩
      exact ⟨v, hv, (boolishExc_eq_true_iff value v (h v hv)).2 hb⟩

/-- A validator returning exactly `false`. -/
def vFalse : Validator := fun _ _ => .ok (.bool false)

/-- A validator returning exactly `true`. -/
def vTrue : Validator := fun _ _ => .ok (.bool true)

/-- A validator returning an `Error` value. -/
def vErr : Validator := fun _ _ => .ok (.err ⟨"broken"⟩)

/-- Witness for C5: `or(A, B, E)` where `A` returns `false`, `B` returns
`true` and `E` returns an `Error` evaluates to exactly `true`. -/
theorem or_all_validators_boolean_witness :
    ∃ b : Bool, or [vFalse, vTrue, vErr] (.str "x") .undefined = .ok (.bool b)
      ∧ (b = true ↔ ∃ v ∈ [vFalse, vTrue, vErr], v (.str "x") .undefined = .ok (.bool true)) :=
  or_all_validators_boolean [vFalse, vTrue, vErr] (.str "x") (by
    intro v hv
    simp only [List.mem_cons, List.not_mem_nil, or_false] at hv
    rcases hv with rfl | rfl | rfl
    · exact ⟨.bool false, rfl⟩
    · exact ⟨.bool true, rfl⟩
    · exact ⟨.err ⟨"broken"⟩, rfl⟩)

/-! ## C10 — `sub` and truthiness of field validators -/

/-- Whether one definition entry is satisfied inside `sub`: the validator's
returned value need only be truthy, so a returned `Error` object counts as
satisfied. -/
def subEntryRes (value : JSVal) (kv : String × Validator) : Bool :=
  match kv.2 (value.getProp kv.1) .undefined with
  | .ok r => truthyRes r
  | .error _ => false

theorem subAux_spec (value : JSVal) :
    ∀ (d : List (String × Validator)),
      (∀ kv ∈ d, value.hasOwn kv.1 = true → ∃ r, kv.2 (value.getProp kv.1) .undefined = .ok r) →
      subAux value d = .ok (.bool (d.all fun kv => value.hasOwn kv.1 && subEntryRes value kv))
  | [], _ => by simp [subAux]
  | (key, v) :: rest, h => by
    have hself : value.hasOwn key = true → ∃ r, v (value.getProp key) .undefined = .ok r := by
      intro hk
      simpa using h (key, v) (List.mem_cons_self _ rest) hk
    have ih := subAux_spec value rest (fun kv hkv => h kv (List.mem_cons_of_mem _ hkv))
    by_cases hk : value.hasOwn key = true
    · obtain ⟨r, hr⟩ := hself hk
      cases htr : truthyRes r
      · simp [subAux, subEntryRes, List.all_cons, hk, hr, htr]
      · simp [subAux, subEntryRes, List.all_cons, hk, hr, htr, ih]
    · simp only [Bool.not_eq_true] at hk
      simp [subAux, subEntryRes, List.all_cons, hk]

/-- Claim C10: for every flat definition and every value, `sub` returns a
plain boolean — never an `Error` value — and that boolean is `true` exactly
when the value passes the plain-object check and every definition entry is
an own property whose validator result is truthy; since an `Error` object
is truthy, a field validator returning an `Error` counts as satisfied.
The hypothesis restricts to field validators that return rather than throw,
and is only needed on keys the value owns (`||` short-circuits before the
validator call on a missing key). -/
theorem sub_returns_boolean_truthy_fields (d : List (String × Validator)) (value : JSVal)
    (h : ∀ kv ∈ d, value.hasOwn kv.1 = true → ∃ r, kv.2 (value.getProp kv.1) .undefined = .ok r) :
    ∃ b : Bool, sub d value .undefined = .ok (.bool b)
      ∧ (b = true ↔ (jsPlainCheckFails value = false
          ∧ ∀ kv ∈ d, value.hasOwn kv.1 = true ∧ subEntryRes value kv = true)) := by
  by_cases hp : jsPlainCheckFails value = true
  · refine ⟨false, ?_, ?_⟩
    · show (if jsPlainCheckFails value then _ else _) = _
      rw [hp]
      simp
    · simp [hp]
  · simp only [Bool.not_eq_true] at hp
    refine ⟨d.all fun kv => value.hasOwn kv.1 && subEntryRes value kv, ?_, ?_⟩
    · show (if jsPlainCheckFails value then _ else _) = _
      rw [hp]
      simp only [Bool.false_eq_true, if_false]
      exact subAux_spec value d h
    · rw [List.all_eq_true]
      constructor
      · intro hall
        refine ⟨hp, fun kv hkv => ?_⟩
        have hb := hall kv hkv
        simpa only [Bool.and_eq_true] using hb
      · rintro ⟨_, hall⟩ kv hkv
        simpa only [Bool.and_eq_true] using hall kv hkv

/-- A validator requiring a string value. -/
def vIsString : Validator := fun value _ =>
  match value with
  | .str _ => .ok (.bool true)
  | _ => .ok (.bool false)

/-- Witness for C10: `sub({name: isString, extra: returnsError})` on
`{name: "a", extra: 0}` — the error-returning field validator counts as
satisfied, so the whole check yields `true`. -/
theorem sub_returns_boolean_truthy_fields_witness :
    ∃ b : Bool,
      sub [("name", vIsString), ("extra", vErr)]
          (.obj [("name", .str "a"), ("extra", .num 0)]) .undefined = .ok (.bool b)
      ∧ (b = true ↔ (jsPlainCheckFails (.obj [("name", .str "a"), ("extra", .num 0)]) = false
          ∧ ∀ kv ∈ [("name", vIsString), ("extra", vErr)],
              JSVal.hasOwn (.obj [("name", .str "a"), ("extra", .num 0)]) kv.1 = true
              ∧ subEntryRes (.obj [("name", .str "a"), ("extra", .num 0)]) kv = true)) :=
  sub_returns_boolean_truthy_fields [("name", vIsString), ("extra", vErr)]
    (.obj [("name", .str "a"), ("extra", .num 0)]) (by
      intro kv hkv _
      simp only [List.mem_cons, List.not_mem_nil, or_false] at hkv
      rcases hkv with rfl | rfl
      · exact ⟨.bool true, rfl⟩
      · exact ⟨.err ⟨"broken"⟩, rfl⟩)

/-! ## C1 — first-failure semantics of the validation middleware -/

theorem runRules_append_passed (req : JSVal) :
    ∀ (pre rest : List Rule), (∀ ru ∈ pre, evalRule ru req = .ok none) →
      runRules (pre ++ rest) req = runRules rest req
  | [], rest, _ => rfl
  | ru :: pre, rest, h => by
    have hhd := h ru (List.mem_cons_self ru pre)
    have ih := runRules_append_passed req pre rest
      (fun x hx => h x (List.mem_cons_of_mem ru hx))
    simp only [List.cons_append, runRules, hhd]
    exact ih

/-- Claim C1: when every rule of a route passes, the request proceeds to
the handler; when the rules up to some rule pass and that rule is the first
to fail — returning an `Error` with message `msg` — the middleware responds
with HTTP 400, code `VALIDATION_FAILED` and exactly `msg` as the body
message, and the outcome is the same for every choice of the rules placed
after the failing one, so no later rule is ever evaluated. -/
theorem validation_first_failure (req : JSVal) :
    (∀ rules : List Rule, (∀ ru ∈ rules, evalRule ru req = .ok none) →
      validationMiddleware rules req = .next)
    ∧ ∀ (pre post : List Rule) (rule : Rule) (msg : String),
        (∀ ru ∈ pre, evalRule ru req = .ok none) →
        evalRule rule req = .ok (some ⟨msg⟩) →
        validationMiddleware (pre ++ rule :: post) req
          = .respond { status := 400,
                       body := { error := true, message := msg, code := "VALIDATION_FAILED" } } := by
  constructor
  · intro rules h
    have : runRules (rules ++ []) req = runRules [] req := runRules_append_passed req rules [] h
    rw [List.append_nil] at this
    show (match runRules rules req with
      | .ok none => MwResult.next
      | .ok (some e) => _
      | .error e => _) = _
    rw [this]
    rfl
  · intro pre post rule msg hpre hrule
    have hrw : runRules (pre ++ rule :: post) req = runRules (rule :: post) req :=
      runRules_append_passed req pre (rule :: post) hpre
    show (match runRules (pre ++ rule :: post) req with
      | .ok none => MwResult.next
      | .ok (some e) =>
          MwResult.respond ((ServerError.make e.message (some 400) (some "VALIDATION_FAILED")).respond)
      | .error e =>
          MwResult.respond ((ServerError.from e (some 500) (some "VALIDATION_FAILED")).respond)) = _
    rw [hrw]
    show (match (match evalRule rule req with
        | .error e => Except.error e
        | .ok (some e) => Except.ok (some e)
        | .ok none => runRules post req) with
      | .ok none => MwResult.next
      | .ok (some e) =>
          MwResult.respond ((ServerError.make e.message (some 400) (some "VALIDATION_FAILED")).respond)
      | .error e =>
          MwResult.respond ((ServerError.from e (some 500) (some "VALIDATION_FAILED")).respond)) = _
    rw [hrule]
    rfl

/-- A passing header definition `{ x: alwaysTrue }`. -/
def vdPass : ValDef := .cons "x" (.fn fun _ _ => .ok (.bool true)) .nil

/-- A failing header definition `{ y: alwaysFalse }`. -/
def vdFailY : ValDef := .cons "y" (.fn alwaysFalseV) .nil

/-- A custom rule that would throw if it were ever evaluated. -/
def ruleBoom : Rule := .custom fun _ _ => .error ⟨"side effect"⟩

/-- Witness for C1: with a passing header rule, then a failing header rule
on key `y`, then a throwing custom rule, the middleware answers
`400 VALIDATION_FAILED` with message `Invalid header 'y'!` — the throwing
rule after the failure is never reached (its evaluation would yield a 500
response instead). -/
theorem validation_first_failure_witness :
    validationMiddleware [Rule.header vdPass, Rule.header vdFailY, ruleBoom] emptyReq
      = .respond { status := 400,
                   body := { error := true, message := invalidMsg "header" "y", code := "VALIDATION_FAILED" } } :=
  (validation_first_failure emptyReq).2 [Rule.header vdPass] [ruleBoom]
    (Rule.header vdFailY) (invalidMsg "header" "y")
    (by
      intro ru hru
      simp only [List.mem_singleton] at hru
      subst hru
      rfl)
    rfl

/-! ## C6 — routes with a missing handler are dropped, others survive -/

/-- Claim C6: a route whose handler name is not an own prototype property
of its router, or not callable, is dropped from compilation with a log
entry, and only that route: the routes before and after it compile exactly
as they would alone, and compilation is total — it never crashes. -/
theorem handler_missing_route_dropped (router : RouterM) (route : RouteDef)
    (hpath : (route.path == "") = false) (hhandler : (route.handler == "") = false)
    (hbad : (router.protoProps.contains route.handler && router.isFn route.handler) = false) :
    ∀ (pre post : List (Option RouteDef)),
      compileRoutes router (pre ++ some route :: post)
        = compileRoutes router pre
            ++ .logError (handlerNotFoundMsg router route) :: compileRoutes router post
  | [], post => by
    simp only [List.nil_append, compileRoutes, hpath, hhandler, Bool.or_self,
      Bool.false_eq_true, if_false, hbad, Bool.not_false, if_true]
  | x :: pre, post => by
    have ih := handler_missing_route_dropped router route hpath hhandler hbad pre post
    cases x with
    | none => exact congrArg (fun l => AppEvent.warn (badRouteMsg router) :: l) ih
    | some ro =>
      show (if ro.path == "" || ro.handler == "" then
              AppEvent.warn (badRouteMsg router)
                :: compileRoutes router (pre ++ some route :: post)
            else if !(router.protoProps.contains ro.handler && router.isFn ro.handler) then
              AppEvent.logError (handlerNotFoundMsg router ro)
                :: compileRoutes router (pre ++ some route :: post)
            else
              AppEvent.install ro.path ro.method (routeChain router ro)
                :: compileRoutes router (pre ++ some route :: post))
          = (if ro.path == "" || ro.handler == "" then
              AppEvent.warn (badRouteMsg router) :: compileRoutes router pre
            else if !(router.protoProps.contains ro.handler && router.isFn ro.handler) then
              AppEvent.logError (handlerNotFoundMsg router ro) :: compileRoutes router pre
            else
              AppEvent.install ro.path ro.method (routeChain router ro) :: compileRoutes router pre)
            ++ AppEvent.logError (handlerNotFoundMsg router route) :: compileRoutes router post
      split
      · exact congrArg (fun l => AppEvent.warn (badRouteMsg router) :: l) ih
      · split
        · exact congrArg (fun l => AppEvent.logError (handlerNotFoundMsg router ro) :: l) ih
        · exact congrArg (fun l => AppEvent.install ro.path ro.method (routeChain router ro) :: l) ih

/-- A member lookup reporting every property as callable. -/
def trueFn : String → Bool := fun _ => true

/-- A valid route `GET /one` handled by `one`. -/
def routeOne : RouteDef :=
  { path := "/one", handler := "one", method := some .get, validate := none, corsPolicy := none }

/-- A route whose handler `ghost` exists nowhere on the router. -/
def routeGhost : RouteDef :=
  { path := "/ghost", handler := "ghost", method := some .get, validate := none, corsPolicy := none }

/-- A valid route `POST /two` handled by `two`. -/
def routeTwo : RouteDef :=
  { path := "/two", handler := "two", method := some .post, validate := none, corsPolicy := none }

/-- A router owning `one` and `two` but not `ghost`. -/
def routerW6 : RouterM :=
  { name := "w6", priority := 0, corsPolicy := none,
    routes := [some routeOne, some routeGhost, some routeTwo],
    protoProps := ["constructor", "one", "two"], isFn := trueFn }

/-- Witness for C6: compiling `[one, ghost, two]` drops only the `ghost`
route, logging its missing handler, while `/one` and `/two` are still
installed. -/
theorem handler_missing_route_dropped_witness :
    compileRoutes routerW6 ([some routeOne] ++ some routeGhost :: [some routeTwo])
      = [AppEvent.install "/one" (some .get) (routeChain routerW6 routeOne),
         AppEvent.logError (handlerNotFoundMsg routerW6 routeGhost),
         AppEvent.install "/two" (some .post) (routeChain routerW6 routeTwo)] :=
  (handler_missing_route_dropped routerW6 routeGhost rfl rfl rfl
    [some routeOne] [some routeTwo]).trans rfl

/-! ## C7 — the fixed middleware chain of every compiled route -/

theorem compileRoutes_install_inv (router : RouterM) :
    ∀ (l : List (Option RouteDef)) (p : String) (m : Option RouteMethod) (chain : List MwTag),
      AppEvent.install p m chain ∈ compileRoutes router l →
      ∃ route : RouteDef, some route ∈ l ∧ route.path = p ∧ route.method = m
        ∧ chain = [MwTag.logger]
            ++ (match route.validate with
              | some rules => [MwTag.validation rules]
              | none => [])
            ++ [MwTag.cors (match route.corsPolicy with
              | some cp => cp
              | none => match router.corsPolicy with
                | some cp => cp
                | none => defaultCorsPolicy)]
            ++ [MwTag.handler route.handler]
  | [], p, m, chain, h => by simp [compileRoutes] at h
  | none :: rest, p, m, chain, h => by
    simp only [compileRoutes, List.mem_cons] at h
    rcases h with h | h
    · exact absurd h (by intro hh; cases hh)
    · obtain ⟨route, hmem, hrest⟩ := compileRoutes_install_inv router rest p m chain h
      exact ⟨route, List.mem_cons_of_mem _ hmem, hrest⟩
  | some ro :: rest, p, m, chain, h => by
    revert h
    show AppEvent.install p m chain ∈
        (if ro.path == "" || ro.handler == "" then
          AppEvent.warn (badRouteMsg router) :: compileRoutes router rest
        else if !(router.protoProps.contains ro.handler && router.isFn ro.handler) then
          AppEvent.logError (handlerNotFoundMsg router ro) :: compileRoutes router rest
        else
          AppEvent.install ro.path ro.method (routeChain router ro) :: compileRoutes router rest) → _
    intro h
    split at h
    · rcases List.mem_cons.mp h with h | h
      · exact absurd h (by intro hh; cases hh)
      · obtain ⟨route, hmem, hrest⟩ := compileRoutes_install_inv router rest p m chain h
        exact ⟨route, List.mem_cons_of_mem _ hmem, hrest⟩
    · split at h
      · rcases List.mem_cons.mp h with h | h
        · exact absurd h (by intro hh; cases hh)
        · obtain ⟨route, hmem, hrest⟩ := compileRoutes_install_inv router rest p m chain h
          exact ⟨route, List.mem_cons_of_mem _ hmem, hrest⟩
      · rcases List.mem_cons.mp h with h | h
        · refine ⟨ro, List.mem_cons_self _ _, ?_, ?_, ?_⟩ <;> cases h <;> rfl
        · obtain ⟨route, hmem, hrest⟩ := compileRoutes_install_inv router rest p m chain h
          exact ⟨route, List.mem_cons_of_mem _ hmem, hrest⟩

/-- Claim C7, amended: every middleware chain mounted during route
compilation belongs to one of the router's routes and has the fixed order —
request logger first, then the validation middleware exactly when the
route's `validate` array is present (even when it is empty), then the CORS
middleware with the route-level policy, else the router-level policy, else
the open-origin default, then the bound handler last. -/
theorem chain_fixed_order (router : RouterM) (p : String) (m : Option RouteMethod)
    (chain : List MwTag) (h : AppEvent.install p m chain ∈ compileRouter router) :
    ∃ route : RouteDef, some route ∈ router.routes ∧ route.path = p ∧ route.method = m
      ∧ chain = [MwTag.logger]
          ++ (match route.validate with
            | some rules => [MwTag.validation rules]
            | none => [])
          ++ [MwTag.cors (match route.corsPolicy with
            | some cp => cp
            | none => match router.corsPolicy with
              | some cp => cp
              | none => defaultCorsPolicy)]
          ++ [MwTag.handler route.handler] := by
  revert h
  show AppEvent.install p m chain ∈
      (if router.routes.isEmpty then [AppEvent.warn (noRoutesMsg router)]
       else compileRoutes router router.routes) → _
  intro h
  split at h
  · rcases List.mem_singleton.mp h with h
    cases h
  · exact compileRoutes_install_inv router router.routes p m chain h

/-- The chain the claim predicts, modelled from the claim wording for
comparison: the validation middleware appears if and only if the route's
validation rules are non-empty. -/
def claimedChainC7 (router : RouterM) (route : RouteDef) : List MwTag :=
  [MwTag.logger]
    ++ (match route.validate with
      | some rules => if rules.isEmpty then [] else [MwTag.validation rules]
      | none => [])
    ++ [MwTag.cors (match route.corsPolicy with
      | some cp => cp
      | none => match router.corsPolicy with
        | some cp => cp
        | none => defaultCorsPolicy)]
    ++ [MwTag.handler route.handler]

/-- A route declaring `validate: []` — present but empty. -/
def routeEmptyVal : RouteDef :=
  { path := "/e", handler := "one", method := some .get, validate := some [], corsPolicy := none }

/-- A router holding only the empty-validate route. -/
def routerCx7 : RouterM :=
  { name := "cx7", priority := 0, corsPolicy := none,
    routes := [some routeEmptyVal],
    protoProps := ["constructor", "one"], isFn := trueFn }

/-- Counterexample for C7: a route whose `validate` is the empty array is
compiled with the validation middleware in its chain, although its
validation-rule list is empty — so the claimed "if and only if non-empty"
chain is not the one the compiler builds. -/
theorem chain_fixed_order_counterexample :
    compileRouter routerCx7
      = [AppEvent.install "/e" (some .get)
          [MwTag.logger, MwTag.validation [], MwTag.cors defaultCorsPolicy, MwTag.handler "one"]]
    ∧ routeChain routerCx7 routeEmptyVal ≠ claimedChainC7 routerCx7 routeEmptyVal := by
  constructor
  · rfl
  · intro h
    have hlen := congrArg List.length h
    simp [routeChain, claimedChainC7, routeEmptyVal, routerCx7] at hlen

/-- Witness for the amended C7 theorem at the concrete router `w6`. -/
theorem chain_fixed_order_witness :
    ∃ route : RouteDef, some route ∈ routerW6.routes ∧ route.path = "/one"
      ∧ route.method = some RouteMethod.get
      ∧ [MwTag.logger, MwTag.cors defaultCorsPolicy, MwTag.handler "one"]
        = [MwTag.logger]
            ++ (match route.validate with
              | some rules => [MwTag.validation rules]
              | none => [])
            ++ [MwTag.cors (match route.corsPolicy with
              | some cp => cp
              | none => match routerW6.corsPolicy with
                | some cp => cp
                | none => defaultCorsPolicy)]
            ++ [MwTag.handler route.handler] :=
  chain_fixed_order routerW6 "/one" (some .get)
    [MwTag.logger, MwTag.cors defaultCorsPolicy, MwTag.handler "one"]
    (by
      show AppEvent.install "/one" (some .get) _ ∈
        [AppEvent.install "/one" (some .get) (routeChain routerW6 routeOne),
         AppEvent.logError (handlerNotFoundMsg routerW6 routeGhost),
         AppEvent.install "/two" (some .post) (routeChain routerW6 routeTwo)]
      exact List.mem_cons_self _ _)

/-! ## C4 — the predictive-404 guard is installed exactly once -/

theorem compileRoutes_no_p404 (router : RouterM) :
    ∀ l : List (Option RouteDef), (compileRoutes router l).countP isP404 = 0
  | [] => rfl
  | none :: rest => by
    rw [compileRoutes, List.countP_cons, compileRoutes_no_p404 router rest]
    rfl
  | some ro :: rest => by
    show (if ro.path == "" || ro.handler == "" then
            AppEvent.warn (badRouteMsg router) :: compileRoutes router rest
          else if !(router.protoProps.contains ro.handler && router.isFn ro.handler) then
            AppEvent.logError (handlerNotFoundMsg router ro) :: compileRoutes router rest
          else
            AppEvent.install ro.path ro.method (routeChain router ro)
              :: compileRoutes router rest).countP isP404 = 0
    have ih := compileRoutes_no_p404 router rest
    split
    · rw [List.countP_cons, ih]; rfl
    · split
      · rw [List.countP_cons, ih]; rfl
      · rw [List.countP_cons, ih]; rfl

theorem compileRouter_no_p404 (router : RouterM) :
    (compileRouter router).countP isP404 = 0 := by
  show (if router.routes.isEmpty then [AppEvent.warn (noRoutesMsg router)]
        else compileRoutes router router.routes).countP isP404 = 0
  split
  · rfl
  · exact compileRoutes_no_p404 router router.routes

theorem installLoop_flagged (cfg : Config) :
    ∀ rs : List RouterM, installLoop cfg rs true = (rs.flatMap compileRouter, true)
  | [] => rfl
  | r :: rest => by
    show ((if cfg.predictive404 && gtNum cfg.predictive404Priority r.priority && !true then
            [AppEvent.predictive404]
          else [])
            ++ compileRouter r
            ++ (installLoop cfg rest
                (true
                  || (cfg.predictive404 && gtNum cfg.predictive404Priority r.priority && !true))).1,
         (installLoop cfg rest
           (true
             || (cfg.predictive404 && gtNum cfg.predictive404Priority r.priority && !true))).2)
      = ((r :: rest).flatMap compileRouter, true)
    rw [show (true || (cfg.predictive404 && gtNum cfg.predictive404Priority r.priority && !true))
        = true from Bool.true_or _]
    rw [installLoop_flagged cfg rest]
    simp [List.flatMap_cons]

theorem installLoop_never_under (cfg : Config) :
    ∀ rs : List RouterM, (∀ x ∈ rs, gtNum cfg.predictive404Priority x.priority = false) →
      installLoop cfg rs false = (rs.flatMap compileRouter, false)
  | [], _ => rfl
  | r :: rest, h => by
    have hr := h r (List.mem_cons_self r rest)
    have ih := installLoop_never_under cfg rest (fun x hx => h x (List.mem_cons_of_mem r hx))
    show ((if cfg.predictive404 && gtNum cfg.predictive404Priority r.priority && !false then
            [AppEvent.predictive404]
          else [])
            ++ compileRouter r
            ++ (installLoop cfg rest
                (false
                  || (cfg.predictive404 && gtNum cfg.predictive404Priority r.priority && !false))).1,
         (installLoop cfg rest
           (false
             || (cfg.predictive404 && gtNum cfg.predictive404Priority r.priority && !false))).2)
      = ((r :: rest).flatMap compileRouter, false)
    rw [show (cfg.predictive404 && gtNum cfg.predictive404Priority r.priority && !false) = false by
      rw [hr]; simp]
    rw [show (false || false) = false from rfl, ih]
    simp [List.flatMap_cons]

theorem installLoop_count (cfg : Config) :
    ∀ (rs : List RouterM),
      ((installLoop cfg rs true).1.countP isP404 = 0 ∧ (installLoop cfg rs true).2 = true)
      ∧ (installLoop cfg rs false).1.countP isP404
          = (if (installLoop cfg rs false).2 then 1 else 0)
  | [] => by simp [installLoop]
  | r :: rest => by
    obtain ⟨⟨ht1, ht2⟩, hf⟩ := installLoop_count cfg rest
    have hnormt : installLoop cfg (r :: rest) true
        = (compileRouter r ++ (installLoop cfg rest true).1, (installLoop cfg rest true).2) := by
      show ((if cfg.predictive404 && gtNum cfg.predictive404Priority r.priority && !true then
              [AppEvent.predictive404]
            else [])
              ++ compileRouter r
              ++ (installLoop cfg rest
                  (true
                    || (cfg.predictive404 && gtNum cfg.predictive404Priority r.priority && !true))).1,
           (installLoop cfg rest
             (true
               || (cfg.predictive404 && gtNum cfg.predictive404Priority r.priority && !true))).2)
        = _
      rw [show (true || (cfg.predictive404 && gtNum cfg.predictive404Priority r.priority && !true))
          = true from Bool.true_or _]
      simp
    refine ⟨⟨?_, ?_⟩, ?_⟩
    · rw [hnormt, List.countP_append, ht1, compileRouter_no_p404 r]
    · rw [hnormt]
      exact ht2
    · have hshape : installLoop cfg (r :: rest) false
          = ((if cfg.predictive404 && gtNum cfg.predictive404Priority r.priority then
                [AppEvent.predictive404]
              else [])
                ++ compileRouter r
                ++ (installLoop cfg rest
                    (cfg.predictive404 && gtNum cfg.predictive404Priority r.priority)).1,
             (installLoop cfg rest
               (cfg.predictive404 && gtNum cfg.predictive404Priority r.priority)).2) := by
        show ((if cfg.predictive404 && gtNum cfg.predictive404Priority r.priority && !false then
                [AppEvent.predictive404]
              else [])
                ++ compileRouter r
                ++ (installLoop cfg rest
                    (false
                      || (cfg.predictive404 && gtNum cfg.predictive404Priority r.priority && !false))).1,
             (installLoop cfg rest
               (false
                 || (cfg.predictive404 && gtNum cfg.predictive404Priority r.priority && !false))).2)
          = _
        rw [show (cfg.predictive404 && gtNum cfg.predictive404Priority r.priority && !false)
            = (cfg.predictive404 && gtNum cfg.predictive404Priority r.priority) by simp]
        rw [show (false || (cfg.predictive404 && gtNum cfg.predictive404Priority r.priority))
            = (cfg.predictive404 && gtNum cfg.predictive404Priority r.priority) from
          Bool.false_or _]
      by_cases hc : (cfg.predictive404 && gtNum cfg.predictive404Priority r.priority) = true
      all_goals rw [hshape]
      · rw [hc, installLoop_flagged cfg rest]
        have ht1f : (rest.flatMap compileRouter).countP isP404 = 0 := by
          have h := ht1
          rw [installLoop_flagged cfg rest] at h
          exact h
        simp only [if_true, List.cons_append, List.countP_cons, List.countP_append,
          compileRouter_no_p404 r, ht1f]
        simp [isP404]
      · rw [show (cfg.predictive404 && gtNum cfg.predictive404Priority r.priority) = false by
          simpa using hc]
        simp only [Bool.false_eq_true, if_false, List.nil_append, List.countP_append,
          compileRouter_no_p404 r, hf]
        simp

/-- Claim C4: when predictive 404 is enabled the guard appears exactly once
in the assembled table; it sits immediately before the first router (in the
descending-priority iteration order) whose priority is strictly below the
threshold, all earlier routers being compiled before it; and when no router
falls below the threshold it is installed once after the last router. -/
theorem predictive404_installed_once (cfg : Config) (routers : List RouterM)
    (hen : cfg.predictive404 = true) :
    ((compileApp cfg routers).countP isP404 = 1)
    ∧ (∀ (pre post : List RouterM) (r : RouterM),
        sortRouters routers = pre ++ r :: post →
        (∀ x ∈ pre, gtNum cfg.predictive404Priority x.priority = false) →
        gtNum cfg.predictive404Priority r.priority = true →
        compileApp cfg routers
          = pre.flatMap compileRouter
              ++ AppEvent.predictive404
                :: (compileRouter r ++ post.flatMap compileRouter ++ [AppEvent.errorHandler]))
    ∧ ((∀ x ∈ sortRouters routers, gtNum cfg.predictive404Priority x.priority = false) →
        compileApp cfg routers
          = (sortRouters routers).flatMap compileRouter
              ++ [AppEvent.predictive404, AppEvent.errorHandler]) := by
  refine ⟨?_, ?_, ?_⟩
  · show ((installLoop cfg (sortRouters routers) false).1
        ++ (if cfg.predictive404 && !(installLoop cfg (sortRouters routers) false).2 then
              [AppEvent.predictive404] else [])
        ++ (if !cfg.predictive404 then [AppEvent.static404] else [])
        ++ [AppEvent.errorHandler]).countP isP404 = 1
    obtain ⟨_, hf⟩ := installLoop_count cfg (sortRouters routers)
    by_cases hres : (installLoop cfg (sortRouters routers) false).2 = true
    · rw [hres] at hf
      simp [List.countP_append, hf, hen, hres, isP404]
    · simp only [Bool.not_eq_true] at hres
      rw [hres] at hf
      simp [List.countP_append, hf, hen, hres, isP404]
  · intro pre post r hsort hpre hr
    show (installLoop cfg (sortRouters routers) false).1
        ++ (if cfg.predictive404 && !(installLoop cfg (sortRouters routers) false).2 then
              [AppEvent.predictive404] else [])
        ++ (if !cfg.predictive404 then [AppEvent.static404] else [])
        ++ [AppEvent.errorHandler] = _
    rw [hsort]
    have hloop : installLoop cfg (pre ++ r :: post) false
        = (pre.flatMap compileRouter
            ++ AppEvent.predictive404 :: (compileRouter r ++ post.flatMap compileRouter), true) := by
      clear hsort
      induction pre with
      | nil =>
        show ((if cfg.predictive404 && gtNum cfg.predictive404Priority r.priority && !false then
                [AppEvent.predictive404]
              else [])
                ++ compileRouter r
                ++ (installLoop cfg post
                    (false
                      || (cfg.predictive404 && gtNum cfg.predictive404Priority r.priority
                          && !false))).1,
             (installLoop cfg post
               (false
                 || (cfg.predictive404 && gtNum cfg.predictive404Priority r.priority
                     && !false))).2)
          = _
        rw [show (cfg.predictive404 && gtNum cfg.predictive404Priority r.priority && !false)
            = true by rw [hen, hr]; rfl]
        rw [show ((false || true : Bool)) = true from rfl, installLoop_flagged cfg post]
        simp
      | cons x xs ih =>
        have hx := hpre x (List.mem_cons_self x xs)
        have ihx := ih (fun y hy => hpre y (List.mem_cons_of_mem x hy))
        show ((if cfg.predictive404 && gtNum cfg.predictive404Priority x.priority && !false then
                [AppEvent.predictive404]
              else [])
                ++ compileRouter x
                ++ (installLoop cfg (xs ++ r :: post)
                    (false
                      || (cfg.predictive404 && gtNum cfg.predictive404Priority x.priority
                          && !false))).1,
             (installLoop cfg (xs ++ r :: post)
               (false
                 || (cfg.predictive404 && gtNum cfg.predictive404Priority x.priority
                     && !false))).2)
          = _
        rw [show (cfg.predictive404 && gtNum cfg.predictive404Priority x.priority && !false)
            = false by rw [hx]; simp]
        rw [show ((false || false : Bool)) = false from rfl, ihx]
        simp [List.flatMap_cons, List.append_assoc]
    rw [hloop]
    simp [hen, List.append_assoc]
  · intro hnone
    show (installLoop cfg (sortRouters routers) false).1
        ++ (if cfg.predictive404 && !(installLoop cfg (sortRouters routers) false).2 then
              [AppEvent.predictive404] else [])
        ++ (if !cfg.predictive404 then [AppEvent.static404] else [])
        ++ [AppEvent.errorHandler] = _
    rw [installLoop_never_under cfg (sortRouters routers) hnone]
    simp [hen]

/-- The spec example configuration: predictive 404 enabled with threshold 10. -/
def cfg10 : Config := { predictive404 := true, predictive404Priority := some 10 }

/-- The single route of the priority-20 router. -/
def routeHi : RouteDef :=
  { path := "/hi", handler := "h", method := some .get, validate := none, corsPolicy := none }

/-- The single route of the priority-5 router. -/
def routeLo : RouteDef :=
  { path := "/lo", handler := "l", method := some .get, validate := none, corsPolicy := none }

/-- A router with priority 20. -/
def router20 : RouterM :=
  { name := "high", priority := 20, corsPolicy := none, routes := [some routeHi],
    protoProps := ["constructor", "h"], isFn := trueFn }

/-- A router with priority 5. -/
def router5 : RouterM :=
  { name := "low", priority := 5, corsPolicy := none, routes := [some routeLo],
    protoProps := ["constructor", "l"], isFn := trueFn }

/-- Witness for C4: with routers of priorities `[20, 5]` and threshold 10,
the guard lands exactly once, between the two routers' routes. -/
theorem predictive404_installed_once_witness :
    (compileApp cfg10 [router20, router5]).countP isP404 = 1
    ∧ compileApp cfg10 [router20, router5]
      = [AppEvent.install "/hi" (some .get) (routeChain router20 routeHi),
         AppEvent.predictive404,
         AppEvent.install "/lo" (some .get) (routeChain router5 routeLo),
         AppEvent.errorHandler] := by
  have h := predictive404_installed_once cfg10 [router20, router5] rfl
  refine ⟨h.1, ?_⟩
  have h2 := h.2.1 [router20] [] router5 rfl
    (by
      intro x hx
      rw [List.mem_singleton] at hx
      subst hx
      rfl)
    rfl
  rw [h2]
  rfl

/-! ## C2 — lifecycle phases are grouped per module, services first -/

theorem hookSeq_append (a b : List LifeEv) : hookSeq (a ++ b) = hookSeq a ++ hookSeq b :=
  List.filterMap_append a b _

theorem runPhase_ok (m : ModuleM) (ph : Phase) (spec : HookSpec) (h : hookOk spec = true) :
    (runPhase m ph spec).2 = none
    ∧ hookSeq (runPhase m ph spec).1 = (if spec.present then [(m.name, ph)] else []) := by
  cases spec with
  | absent => exact ⟨rfl, rfl⟩
  | succeeds => exact ⟨rfl, rfl⟩
  | throws e => exact absurd h (by simp [hookOk])

theorem runModule_ok (m : ModuleM) (h : moduleOk m = true) :
    (runModule m).2 = none
    ∧ hookSeq (runModule m).1 = (presentPhases m).map (fun p => (m.name, p)) := by
  have h1 : hookOk m.inject = true := by
    have := h
    simp only [moduleOk, Bool.and_eq_true] at this
    exact this.1.1
  have h2 : hookOk m.config = true := by
    have := h
    simp only [moduleOk, Bool.and_eq_true] at this
    exact this.1.2
  have h3 : hookOk m.init = true := by
    have := h
    simp only [moduleOk, Bool.and_eq_true] at this
    exact this.2
  obtain ⟨e1, s1⟩ := runPhase_ok m .inject m.inject h1
  obtain ⟨e2, s2⟩ := runPhase_ok m .config m.config h2
  obtain ⟨e3, s3⟩ := runPhase_ok m .init m.init h3
  constructor
  · show (let r1 := runPhase m .inject m.inject
      match r1.2 with
      | some e => (r1.1, some e)
      | none =>
        let r2 := runPhase m .config m.config
        match r2.2 with
        | some e => (r1.1 ++ r2.1, some e)
        | none =>
          let r3 := runPhase m .init m.init
          (r1.1 ++ r2.1 ++ r3.1, r3.2)).2 = none
    rw [show (runPhase m .inject m.inject)
        = ((runPhase m .inject m.inject).1, none) from by rw [← e1]]
    rw [show (runPhase m .config m.config)
        = ((runPhase m .config m.config).1, none) from by rw [← e2]]
    rw [show (runPhase m .init m.init)
        = ((runPhase m .init m.init).1, none) from by rw [← e3]]
  · show hookSeq (let r1 := runPhase m .inject m.inject
      match r1.2 with
      | some e => (r1.1, some e)
      | none =>
        let r2 := runPhase m .config m.config
        match r2.2 with
        | some e => (r1.1 ++ r2.1, some e)
        | none =>
          let r3 := runPhase m .init m.init
          (r1.1 ++ r2.1 ++ r3.1, r3.2)).1 = _
    rw [show (runPhase m .inject m.inject)
        = ((runPhase m .inject m.inject).1, none) from by rw [← e1]]
    rw [show (runPhase m .config m.config)
        = ((runPhase m .config m.config).1, none) from by rw [← e2]]
    rw [show (runPhase m .init m.init)
        = ((runPhase m .init m.init).1, none) from by rw [← e3]]
    show hookSeq ((runPhase m .inject m.inject).1 ++ (runPhase m .config m.config).1
        ++ (runPhase m .init m.init).1) = _
    rw [hookSeq_append, hookSeq_append, s1, s2, s3, presentPhases]
    cases hi : m.inject.present <;> cases hc : m.config.present <;> cases hn : m.init.present <;>
      simp

theorem runModules_ok :
    ∀ ms : List ModuleM, (∀ m ∈ ms, moduleOk m = true) →
      (runModules ms).2 = none
      ∧ hookSeq (runModules ms).1
          = ms.flatMap (fun m => (presentPhases m).map (fun p => (m.name, p)))
  | [], _ => ⟨rfl, rfl⟩
  | m :: rest, h => by
    obtain ⟨e1, s1⟩ := runModule_ok m (h m (List.mem_cons_self m rest))
    obtain ⟨e2, s2⟩ := runModules_ok rest (fun x hx => h x (List.mem_cons_of_mem m hx))
    have hrw : runModules (m :: rest)
        = ((runModule m).1 ++ (runModules rest).1, (runModules rest).2) := by
      show (let r := runModule m
        match r.2 with
        | some e => (r.1, some e)
        | none =>
          let r2 := runModules rest
          (r.1 ++ r2.1, r2.2)) = _
      rw [show (runModule m) = ((runModule m).1, none) from by rw [← e1]]
    constructor
    · rw [hrw]
      exact e2
    · rw [hrw]
      show hookSeq ((runModule m).1 ++ (runModules rest).1) = _
      rw [hookSeq_append, s1, s2, List.flatMap_cons]

/-- Claim C2: when no lifecycle hook fails, the sequence of hook
invocations during bootstrap is exactly: for each service in registry
order, its present phases in the order injection, configuration,
initialization; then the same for each router — so each module completes
all its phases before the next module starts, every service phase precedes
every router phase, and phases of distinct modules never interleave. -/
theorem lifecycle_phase_order (services routers : List ModuleM) (port : Int)
    (h : ∀ m ∈ services ++ routers, moduleOk m = true) :
    hookSeq (boot services routers port)
      = (services ++ routers).flatMap (fun m => (presentPhases m).map (fun p => (m.name, p))) := by
  have hs := runModules_ok services (fun m hm => h m (List.mem_append_left _ hm))
  have hr := runModules_ok routers (fun m hm => h m (List.mem_append_right _ hm))
  have hb : boot services routers port
      = (runModules services).1 ++ (runModules routers).1 ++ listenTrace port := by
    show (match runModules services with
      | (t, some e) => t ++ catchTrace e ++ listenTrace port
      | (t, none) =>
        match runModules routers with
        | (t2, some e) => t ++ t2 ++ catchTrace e ++ listenTrace port
        | (t2, none) => t ++ t2 ++ listenTrace port) = _
    rw [show (runModules services) = ((runModules services).1, none) from by rw [← hs.1]]
    rw [show (runModules routers) = ((runModules routers).1, none) from by rw [← hr.1]]
  rw [hb, hookSeq_append, hookSeq_append, hs.2, hr.2]
  rw [show hookSeq (listenTrace port) = [] from rfl, List.append_nil, List.flatMap_append]

/-- A service implementing all three hooks. -/
def svcA : ModuleM :=
  { name := "a", type := .service, inject := .succeeds, config := .succeeds, init := .succeeds }

/-- A service implementing only configuration. -/
def svcB : ModuleM :=
  { name := "b", type := .service, inject := .absent, config := .succeeds, init := .absent }

/-- A router implementing injection and initialization. -/
def rtrR : ModuleM :=
  { name := "r", type := .router, inject := .succeeds, config := .absent, init := .succeeds }

/-- Witness for C2: two services and one router produce the grouped,
ordered hook sequence with absent hooks skipped. -/
theorem lifecycle_phase_order_witness :
    hookSeq (boot [svcA, svcB] [rtrR] 8123)
      = [("a", Phase.inject), ("a", Phase.config), ("a", Phase.init),
         ("b", Phase.config), ("r", Phase.inject), ("r", Phase.init)] := by
  rw [lifecycle_phase_order [svcA, svcB] [rtrR] 8123 (by decide)]
  rfl

/-! ## C3 — a failing hook skips the rest but the server still listens -/

theorem runModules_fail (pre : List ModuleM) (m : ModuleM) (post : List ModuleM)
    (tr : List LifeEv) (e : String)
    (hpre : ∀ x ∈ pre, moduleOk x = true) (hm : runModule m = (tr, some e)) :
    runModules (pre ++ m :: post) = (pre.flatMap (fun x => (runModule x).1) ++ tr, some e) := by
  induction pre with
  | nil =>
    show (let r := runModule m
      match r.2 with
      | some e => (r.1, some e)
      | none =>
        let r2 := runModules post
        (r.1 ++ r2.1, r2.2)) = _
    rw [hm]
    rfl
  | cons x xs ih =>
    have hx := runModule_ok x (hpre x (List.mem_cons_self x xs))
    have ihx := ih (fun y hy => hpre y (List.mem_cons_of_mem x hy))
    show (let r := runModule x
      match r.2 with
      | some e => (r.1, some e)
      | none =>
        let r2 := runModules (xs ++ m :: post)
        (r.1 ++ r2.1, r2.2)) = _
    rw [show (runModule x) = ((runModule x).1, none) from by rw [← hx.1]]
    rw [show runModules (xs ++ m :: post)
        = (xs.flatMap (fun y => (runModule y).1) ++ tr, some e) from ihx]
    rw [List.flatMap_cons, List.append_assoc]

/-- Claim C3, amended: if any lifecycle hook of any module — of the
service set or of the router set — throws or rejects, the boot trace
consists of the traces of the modules already run, then the failing
module's trace up to and including the failing hook — no later phase of
that module, no later module of its set and no module of the following
set contributes anything (in particular no router hook runs after a
service failure) — followed by the error report on the process-level
channel; but startup is not aborted: the server still calls `app.listen`
and announces the launch. -/
theorem lifecycle_failure_skips_rest (services routers : List ModuleM) (port : Int) :
    (∀ (pre post : List ModuleM) (m : ModuleM) (tr : List LifeEv) (e : String),
      services = pre ++ m :: post →
      (∀ x ∈ pre, moduleOk x = true) →
      runModule m = (tr, some e) →
      boot services routers port
        = pre.flatMap (fun x => (runModule x).1) ++ tr
            ++ (catchTrace e ++ listenTrace port)
      ∧ LifeEv.listen port ∈ boot services routers port)
    ∧ ∀ (pre post : List ModuleM) (m : ModuleM) (tr : List LifeEv) (e : String),
        (∀ x ∈ services, moduleOk x = true) →
        routers = pre ++ m :: post →
        (∀ x ∈ pre, moduleOk x = true) →
        runModule m = (tr, some e) →
        boot services routers port
          = (runModules services).1
              ++ pre.flatMap (fun x => (runModule x).1) ++ tr
              ++ (catchTrace e ++ listenTrace port)
        ∧ LifeEv.listen port ∈ boot services routers port := by
  constructor
  · intro pre post m tr e hsplit hpre hm
    subst hsplit
    have hrm := runModules_fail pre m post tr e hpre hm
    have hb : boot (pre ++ m :: post) routers port
        = pre.flatMap (fun x => (runModule x).1) ++ tr
            ++ (catchTrace e ++ listenTrace port) := by
      show (match runModules (pre ++ m :: post) with
        | (t, some e) => t ++ catchTrace e ++ listenTrace port
        | (t, none) =>
          match runModules routers with
          | (t2, some e) => t ++ t2 ++ catchTrace e ++ listenTrace port
          | (t2, none) => t ++ t2 ++ listenTrace port) = _
      rw [hrm]
      exact List.append_assoc _ _ _
    refine ⟨hb, ?_⟩
    rw [hb]
    refine List.mem_append_right _ ?_
    refine List.mem_append_right _ ?_
    show LifeEv.listen port ∈ [LifeEv.listen port, LifeEv.emitLaunch port]
    exact List.mem_cons_self _ _
  · intro pre post m tr e hsvc hsplit hpre hm
    subst hsplit
    have hs := runModules_ok services hsvc
    have hrm := runModules_fail pre m post tr e hpre hm
    have hb : boot services (pre ++ m :: post) port
        = (runModules services).1 ++ (pre.flatMap (fun x => (runModule x).1) ++ tr)
            ++ catchTrace e ++ listenTrace port := by
      show (match runModules services with
        | (t, some e) => t ++ catchTrace e ++ listenTrace port
        | (t, none) =>
          match runModules (pre ++ m :: post) with
          | (t2, some e) => t ++ t2 ++ catchTrace e ++ listenTrace port
          | (t2, none) => t ++ t2 ++ listenTrace port) = _
      rw [show (runModules services) = ((runModules services).1, none) from by rw [← hs.1]]
      rw [hrm]
    have hb2 : boot services (pre ++ m :: post) port
        = (runModules services).1
            ++ pre.flatMap (fun x => (runModule x).1) ++ tr
            ++ (catchTrace e ++ listenTrace port) := by
      rw [hb]
      simp only [List.append_assoc]
    refine ⟨hb2, ?_⟩
    rw [hb]
    refine List.mem_append_right _ ?_
    show LifeEv.listen port ∈ [LifeEv.listen port, LifeEv.emitLaunch port]
    exact List.mem_cons_self _ _

/-- A service whose initialization hook rejects. -/
def svcBoom : ModuleM :=
  { name := "boom", type := .service, inject := .succeeds, config := .absent,
    init := .throws "kaput" }

/-- A router whose initialization hook rejects. -/
def rtrBoom : ModuleM :=
  { name := "rboom", type := .router, inject := .succeeds, config := .absent,
    init := .throws "router kaput" }

/-- Counterexample for C3: after the service initialization failure the
router's hooks never run and the error is reported — but `app.listen` is
still reached, so the server does begin serving, contrary to the claim. -/
theorem lifecycle_failure_counterexample :
    (runModule svcBoom).2 = some "kaput"
    ∧ hookSeq (boot [svcBoom] [rtrR] 8123) = [("boom", Phase.inject), ("boom", Phase.init)]
    ∧ LifeEv.emitError "kaput" ∈ boot [svcBoom] [rtrR] 8123
    ∧ LifeEv.listen 8123 ∈ boot [svcBoom] [rtrR] 8123 := by
  refine ⟨rfl, rfl, ?_, ?_⟩ <;> decide

/-- Witness for the amended C3 theorem, exercising both branches: a
service whose initialization rejects (the router set is skipped) and, in a
second bootstrap, a router whose initialization rejects after a healthy
service set — the server listens in both. -/
theorem lifecycle_failure_skips_rest_witness :
    (boot [svcA, svcBoom] [rtrR] 8123
        = [svcA].flatMap (fun x => (runModule x).1) ++ (runModule svcBoom).1
            ++ (catchTrace "kaput" ++ listenTrace 8123)
      ∧ LifeEv.listen 8123 ∈ boot [svcA, svcBoom] [rtrR] 8123)
    ∧ (boot [svcA] [rtrR, rtrBoom] 8123
        = (runModules [svcA]).1
            ++ [rtrR].flatMap (fun x => (runModule x).1) ++ (runModule rtrBoom).1
            ++ (catchTrace "router kaput" ++ listenTrace 8123)
      ∧ LifeEv.listen 8123 ∈ boot [svcA] [rtrR, rtrBoom] 8123) :=
  ⟨(lifecycle_failure_skips_rest [svcA, svcBoom] [rtrR] 8123).1 [svcA] [] svcBoom
      (runModule svcBoom).1 "kaput" rfl
      (by
        intro x hx
        rw [List.mem_singleton] at hx
        subst hx
        rfl)
      rfl,
   (lifecycle_failure_skips_rest [svcA] [rtrR, rtrBoom] 8123).2 [rtrR] [] rtrBoom
      (runModule rtrBoom).1 "router kaput"
      (by
        intro x hx
        rw [List.mem_singleton] at hx
        subst hx
        rfl)
      rfl
      (by
        intro x hx
        rw [List.mem_singleton] at hx
        subst hx
        rfl)
      rfl⟩

end Steroids
